import Mathlib

set_option autoImplicit false

/-!
Verification of the client harness in tests/utils/test_client.py.

The harness drives an external analysis server over line-oriented pipes.
This file gives a shallow embedding of the harness operations that the
testable properties talk about: the response-correlation loop
wait_for_response, the id allocator next_id, the background stdout reader
read_stdout, the shutdown routine close, and the startup wait loop of
start_server. Each definition is a direct translation of the Python
method it is named after; theorems below settle the stated properties.
-/

namespace TestClient

/-- A decoded response line. The reader stores the whole decoded object
on the queue; correlation reads its id with response.get, which yields
none when the object carries no id. The payload field stands for the rest
of the decoded object, so distinct responses can be told apart. -/
structure Msg where
  rid : Option Nat
  payload : Nat
deriving DecidableEq

/-- Outcome of one call to wait_for_response. The constructor
timeoutError models the TimeoutError raise at the end of the loop.
The constructor connectionLost is the failure kind named in section 7 of
the design document; it is declared here so that statements about it can
be made, and none of the translated functions ever produces it. -/
inductive WaitOutcome where
  | response (m : Msg)
  | timeoutError
  | connectionLost
deriving DecidableEq

/-- The wait_for_response loop, iterating over the responses the shared
queue yields before the deadline (given here as the list of arrivals in
queue order), carrying the local deferred list. A dequeued response is
returned when request_id is None or its id equals request_id; any other
dequeued response is appended to deferred. When nothing more arrives
before the deadline the loop raises TimeoutError. In both exits the
finally block puts the deferred responses back onto the queue, in order;
the second component of the result is the queue content that the finally
block leaves behind. -/
def wait_loop (request_id : Option Nat) : List Msg → List Msg → WaitOutcome × List Msg
  | [], deferred => (WaitOutcome.timeoutError, deferred)
  | m :: rest, deferred =>
    if request_id = none ∨ m.rid = request_id then (WaitOutcome.response m, rest ++ deferred)
    else wait_loop request_id rest (deferred ++ [m])

/-- wait_for_response(timeout, request_id): the loop starts with an empty
local deferred list. -/
def wait_for_response (queue : List Msg) (request_id : Option Nat) : WaitOutcome × List Msg :=
  wait_loop request_id queue []

/-- next_id: increments the request_id counter and returns it. The pair
is (new counter state, returned id). -/
def next_id (request_id : Nat) : Nat × Nat :=
  (request_id + 1, request_id + 1)

/-- The ids handed out by n successive next_id calls starting from
counter state s. -/
def alloc_ids : Nat → Nat → List Nat
  | _, 0 => []
  | s, n + 1 => (next_id s).2 :: alloc_ids (next_id s).1 n

/-- Outcome of json.loads on a stripped line: decodeError when json.loads
raises JSONDecodeError; obj when it yields a JSON object, whose id field
response.get reads; nonObj when it yields a value that is valid JSON but
not an object, such as a bare number, array or string, on which
response.get raises AttributeError. The Nat argument tells distinct
non-object values apart. -/
inductive Decoded where
  | decodeError
  | obj (m : Msg)
  | nonObj (v : Nat)
deriving DecidableEq

/-- One line as the read_stdout loop inspects it. blankAfterStrip is
whether the stripped line is empty; noiseMarker is whether the stripped
line contains one of the build-output markers the loop skips; decoded is
the outcome of json.loads on the stripped line. -/
structure LineModel where
  blankAfterStrip : Bool
  noiseMarker : Bool
  decoded : Decoded
deriving DecidableEq

/-- One entry of response_queue: the reader puts whatever json.loads
produced there before inspecting it, so the queue can hold a decoded
object or a bare non-object value. -/
inductive QItem where
  | msg (m : Msg)
  | raw (v : Nat)
deriving DecidableEq

/-- The body of the read_stdout loop for one line; the second component
is whether the loop proceeds to the next line. A blank line, a line with
a build-output marker and a line that raises JSONDecodeError are skipped
and the loop continues; a decoded object is put on the shared queue,
which appends since queue.Queue is FIFO; a decoded non-object is also put
on the queue, and then the success log reads response.get on it, whose
AttributeError escapes the JSONDecodeError handler, lands in the outer
generic handler and ends the loop. -/
def read_line (q : List QItem) (l : LineModel) : List QItem × Bool :=
  if l.blankAfterStrip then (q, true)
  else if l.noiseMarker then (q, true)
  else
    match l.decoded with
    | Decoded.decodeError => (q, true)
    | Decoded.obj m => (q ++ [QItem.msg m], true)
    | Decoded.nonObj v => (q ++ [QItem.raw v], false)

/-- The read_stdout loop over the stream: readline yields each line in
turn; the loop ends when readline reports end of stream, here the end of
the list, or early when a line body ends it. The second component is
whether end of stream was reached: true for the break on EOF, false when
an uncaught exception terminated the loop with lines still unread. -/
def read_stdout : List LineModel → List QItem → List QItem × Bool
  | [], q => (q, true)
  | l :: rest, q =>
    if (read_line q l).2 then read_stdout rest (read_line q l).1
    else ((read_line q l).1, false)

/-- A line that carries a decoded protocol response object. -/
def protocol_line (m : Msg) : LineModel :=
  ⟨false, false, Decoded.obj m⟩

/-- The mutable fields a TestClient instance holds: whether the process
handle is set, the content of response_queue, the request_id counter and
the initialization flag. There is no lifecycle field beyond these; in
particular nothing records a Closing state. -/
structure ClientState where
  hasProcess : Bool
  queue : List QItem
  request_id : Nat
  inited : Bool
deriving DecidableEq

/-- The whole life of the read_stdout thread, from start until it exits,
whether by the break on end of stream or by an uncaught exception: it
runs the loop over the lines and touches no field of the client other
than the queue. -/
def read_stdout_thread (s : ClientState) (lines : List LineModel) : ClientState :=
  { s with queue := (read_stdout lines s.queue).1 }

/-- Outcome of one call to wait_for_response as seen on the raw queue:
the outcomes of WaitOutcome, plus the AttributeError that response.get
raises on a dequeued entry that is not an object. Nothing inside
wait_for_response catches it, so it propagates to the caller; the finally
block still re-enqueues the deferred list on the way out. -/
inductive RawWaitOutcome where
  | response (m : Msg)
  | timeoutError
  | attributeError (v : Nat)
deriving DecidableEq

/-- The wait_for_response loop over the raw queue content: response.get
is called on each dequeued entry before any matching, so a non-object
entry raises AttributeError at once, with the entries dequeued earlier
already moved to deferred and the crashed-on entry consumed. -/
def raw_wait_loop (request_id : Option Nat) :
    List QItem → List QItem → RawWaitOutcome × List QItem
  | [], deferred => (RawWaitOutcome.timeoutError, deferred)
  | QItem.raw v :: rest, deferred => (RawWaitOutcome.attributeError v, rest ++ deferred)
  | QItem.msg m :: rest, deferred =>
    if request_id = none ∨ m.rid = request_id then (RawWaitOutcome.response m, rest ++ deferred)
    else raw_wait_loop request_id rest (deferred ++ [QItem.msg m])

/-- wait_for_response on the raw queue, starting with an empty deferred
list. -/
def raw_wait_for_response (queue : List QItem) (request_id : Option Nat) :
    RawWaitOutcome × List QItem :=
  raw_wait_loop request_id queue []

/-- max_wait_time of the startup loop, 8 seconds, in tenths of a
second. -/
def max_wait_time_tenths : Nat := 80

/-- The timeout parameter of wait_for_response defaults to 10 seconds,
here in tenths of a second. The initialization attempt passes no timeout
argument, so one attempt against a not yet ready server blocks for this
long in wall time, none of which the elapsed counter of the startup loop
records. -/
def default_wait_timeout_tenths : Nat := 100

/-- How the child process reacts during close: whether it exits within
the 5 second grace period given to process.wait, and whether
process.terminate raises. Failures of os.killpg are not tracked because
both ProcessLookupError and AttributeError are swallowed on the spot. -/
structure ProcBehavior where
  exitsWithinGrace : Bool
  terminateRaises : Bool
deriving DecidableEq

/-- The process operations close can attempt, in the order it attempts
them. closeStdin never occurs in a trace of the translated close; it is
declared so the stated shutdown sequence can be compared with the actual
one. -/
inductive ShutdownAction where
  | terminate
  | waitGrace
  | killProcessGroup
  | closeStdin
deriving DecidableEq

/-- close from the source: when a process handle is present it calls
terminate, then wait with a 5 second grace period, and on TimeoutExpired
escalates to os.killpg with SIGKILL on the process group; when terminate
raises, the generic handler swallows the exception and no wait happens.
Every exception path is caught, and the finally block clears the process
handle, so close always returns normally; with no process handle it does
nothing. The second component is the trace of attempted operations. -/
def close (s : ClientState) (b : ProcBehavior) : ClientState × List ShutdownAction :=
  if s.hasProcess then
    ({ s with hasProcess := false },
      if b.terminateRaises then [ShutdownAction.terminate]
      else if b.exitsWithinGrace then [ShutdownAction.terminate, ShutdownAction.waitGrace]
      else [ShutdownAction.terminate, ShutdownAction.waitGrace,
        ShutdownAction.killProcessGroup])
  else (s, [])

/-- Timing of the child during startup, in tenths of a second of the
elapsed counter of the startup loop: exitedAt is when poll starts
reporting an exit code, none when the process never exits; readyAt is the
earliest elapsed value at which an initialization attempt succeeds. -/
structure StartBehavior where
  exitedAt : Option Nat
  readyAt : Nat
deriving DecidableEq

/-- poll() is not None at the given elapsed time. -/
def poll_exited (b : StartBehavior) (elapsed : Nat) : Bool :=
  match b.exitedAt with
  | none => false
  | some t => decide (t ≤ elapsed)

/-- Outcome of the startup wait loop in start_server: success returns at
some elapsed time; a positive poll raises RuntimeError at once; a failed
initialization attempt at or past the overall budget raises RuntimeError;
fellThrough is the implicit None return when the while condition ends the
loop, shown unreachable below. -/
inductive StartResult where
  | ready (elapsed : Nat)
  | fatalExited (elapsed : Nat)
  | fatalTimeout (elapsed : Nat)
  | fellThrough
deriving DecidableEq

/-- The startup wait loop of start_server with times in tenths of a
second: max_wait_time is 8 seconds, so 80; wait_interval is 0.2 seconds,
so each iteration sleeps 2; attempts begin once elapsed reaches 1 second,
so 10. The first argument counts the iterations the while condition still
admits: elapsed starts at 0 and grows by 2 while elapsed < 80, hence
exactly 40 iterations. Each iteration first polls the process and fails
fast when it has exited, then sleeps, then attempts initialization when
the threshold is reached, returning on success, raising when the budget
is spent, and retrying otherwise. -/
def start_loop (b : StartBehavior) : Nat → Nat → StartResult
  | 0, _ => StartResult.fellThrough
  | iters + 1, elapsed =>
    if poll_exited b elapsed then StartResult.fatalExited elapsed
    else
      if 10 ≤ elapsed + 2 then
        if b.readyAt ≤ elapsed + 2 then StartResult.ready (elapsed + 2)
        else if 80 ≤ elapsed + 2 then StartResult.fatalTimeout (elapsed + 2)
        else start_loop b iters (elapsed + 2)
      else start_loop b iters (elapsed + 2)

/-- The startup wait of start_server: the loop from elapsed 0 with the
full budget. -/
def start_server (b : StartBehavior) : StartResult :=
  start_loop b 40 0

end TestClient

namespace TestClient

/-- Complete description of one wait_loop run for a concrete request id:
either some dequeued response matches, and then the queue decomposes as a
non-matching prefix, the first matching response, and a suffix, with the
result returning that response and the finally block leaving suffix,
previous deferred content and prefix on the queue; or nothing matches and
the run times out with every dequeued response put back in order. -/
theorem wait_loop_spec (n : Nat) (q : List Msg) : ∀ d : List Msg,
    (∃ pre m post, q = pre ++ m :: post ∧ (∀ x ∈ pre, x.rid ≠ some n) ∧ m.rid = some n ∧
      wait_loop (some n) q d = (WaitOutcome.response m, post ++ (d ++ pre))) ∨
    ((∀ x ∈ q, x.rid ≠ some n) ∧ wait_loop (some n) q d = (WaitOutcome.timeoutError, d ++ q)) := by
  induction q with
  | nil => intro d; right; simp [wait_loop]
  | cons m rest ih =>
    intro d
    by_cases hm : m.rid = some n
    · left
      refine ⟨[], m, rest, rfl, by simp, hm, ?_⟩
      simp [wait_loop, hm]
    · rcases ih (d ++ [m]) with ⟨pre, mm, post, hq, hpre, hmm, heq⟩ | ⟨hall, heq⟩
      · left
        refine ⟨m :: pre, mm, post, by simp [hq], ?_, hmm, ?_⟩
        · intro x hx
          rcases List.mem_cons.mp hx with hx | hx
          · subst hx; exact hm
          · exact hpre x hx
        · have hcond : ¬ ((some n : Option Nat) = none ∨ m.rid = some n) := by
            simp [hm]
          simp only [wait_loop, if_neg hcond, heq]
          simp
      · right
        constructor
        · intro x hx
          rcases List.mem_cons.mp hx with hx | hx
          · subst hx; exact hm
          · exact hall x hx
        · have hcond : ¬ ((some n : Option Nat) = none ∨ m.rid = some n) := by
            simp [hm]
          simp only [wait_loop, if_neg hcond, heq]
          simp

/-- C1. Correlation correctness: a wait on a concrete request id only ever
returns a response whose id field equals that request id, for every order
of arrivals; and in the concrete reverse-order scenario, with the response
for id 2 arriving before the response for id 1, the wait for id 1 returns
the id 1 payload and the subsequent wait for id 2 returns the id 2
payload. -/
theorem wait_for_response_correlates :
    (∀ (n : Nat) (q : List Msg) (m : Msg) (q2 : List Msg),
        wait_for_response q (some n) = (WaitOutcome.response m, q2) → m.rid = some n) ∧
    (wait_for_response [⟨some 2, 22⟩, ⟨some 1, 11⟩] (some 1) =
        (WaitOutcome.response ⟨some 1, 11⟩, [⟨some 2, 22⟩]) ∧
      wait_for_response [⟨some 2, 22⟩] (some 2) = (WaitOutcome.response ⟨some 2, 22⟩, [])) := by
  refine ⟨?_, by decide, by decide⟩
  intro n q m q2 h
  rcases wait_loop_spec n q [] with ⟨pre, mm, post, _, _, hmm, heq⟩ | ⟨_, heq⟩
  · rw [wait_for_response] at h
    rw [heq] at h
    have : mm = m := by
      have := congrArg Prod.fst h
      simpa using this
    rw [← this]; exact hmm
  · rw [wait_for_response] at h
    rw [heq] at h
    simp at h

/-- Witness for C1 at a concrete queue: applying the theorem to the
reverse-order queue shows the returned response carries id 1. -/
theorem wait_for_response_correlates_witness :
    (⟨some 1, 11⟩ : Msg).rid = some 1 :=
  wait_for_response_correlates.1 1 [⟨some 2, 22⟩, ⟨some 1, 11⟩] ⟨some 1, 11⟩
    [⟨some 2, 22⟩] (by decide)

/-- The ids handed out from counter state s are s+1, s+2, and so on. -/
theorem alloc_ids_eq_range (n : Nat) : ∀ s : Nat, alloc_ids s n = List.range' (s + 1) n := by
  induction n with
  | zero => intro s; rfl
  | succ k ih =>
    intro s
    rw [List.range'_succ]
    simp [alloc_ids, next_id, ih]

/-- C2. Id uniqueness and monotonicity: next_id returns the previous
counter value plus one and stores it back, so the N ids allocated by one
harness instance from the initial counter 0 are exactly 1, 2, ..., N:
strictly increasing, hence pairwise distinct, and never reused. -/
theorem next_id_unique_monotone :
    (∀ s : Nat, next_id s = (s + 1, s + 1)) ∧
    (∀ N : Nat, alloc_ids 0 N = List.range' 1 N ∧
      (alloc_ids 0 N).Pairwise (· < ·) ∧ (alloc_ids 0 N).Nodup) := by
  refine ⟨fun s => rfl, fun N => ⟨alloc_ids_eq_range N 0, ?_, ?_⟩⟩
  · rw [alloc_ids_eq_range N 0]
    exact List.pairwise_lt_range' 1 N
  · rw [alloc_ids_eq_range N 0]
    exact List.nodup_range' 1 N

/-- C3. Timeout isolation: a wait whose request id matches no arriving
response raises TimeoutError and leaves the queue exactly as it was, and
a later wait for a different request id b returns a response carrying id
b, never the late response carrying id a, while the late response stays
held on the queue. -/
theorem timeout_isolation :
    (∀ (a : Nat) (q : List Msg), (∀ x ∈ q, x.rid ≠ some a) →
        wait_for_response q (some a) = (WaitOutcome.timeoutError, q)) ∧
    (∀ (a b : Nat) (q q2 : List Msg) (m late : Msg),
        a ≠ b → late ∈ q → late.rid = some a →
        wait_for_response q (some b) = (WaitOutcome.response m, q2) →
        m.rid = some b ∧ m ≠ late ∧ late ∈ q2) := by
  constructor
  · intro a q hnone
    rcases wait_loop_spec a q [] with ⟨pre, mm, post, hq, _, hmm, _⟩ | ⟨_, heq⟩
    · exact absurd hmm (hnone mm (by simp [hq]))
    · rw [wait_for_response, heq]; simp
  · intro a b q q2 m late hab hlate hrid h
    rcases wait_loop_spec b q [] with ⟨pre, mm, post, hq, hpre, hmm, heq⟩ | ⟨_, heq⟩
    · rw [wait_for_response, heq] at h
      have hmmm : mm = m := by
        have := congrArg Prod.fst h
        simpa using this
      subst hmmm
      have hq2 : q2 = post ++ ([] ++ pre) := by
        have := congrArg Prod.snd h
        simpa using this.symm
      have hne : mm ≠ late := by
        intro hcontra
        rw [hcontra, hrid] at hmm
        exact hab (by simpa using hmm)
      refine ⟨hmm, hne, ?_⟩
      rw [hq2]
      rw [hq] at hlate
      rcases List.mem_append.mp hlate with hl | hl
      · simp [hl]
      · rcases List.mem_cons.mp hl with hl | hl
        · exact absurd hl.symm hne
        · simp [hl]
    · rw [wait_for_response, heq] at h
      simp at h

/-- Witness for C3: a wait for id 9 over a queue holding only the id 1
response times out with the queue intact, and a wait for id 2 over a
queue holding the late id 1 response followed by the id 2 response
returns the id 2 response while the late one stays on the queue. -/
theorem timeout_isolation_witness :
    wait_for_response [⟨some 1, 5⟩] (some 9) = (WaitOutcome.timeoutError, [⟨some 1, 5⟩]) ∧
    ((⟨some 2, 7⟩ : Msg).rid = some 2 ∧ (⟨some 2, 7⟩ : Msg) ≠ ⟨some 1, 5⟩ ∧
      (⟨some 1, 5⟩ : Msg) ∈ [⟨some 1, 5⟩]) :=
  ⟨timeout_isolation.1 9 [⟨some 1, 5⟩] (by decide),
    timeout_isolation.2 1 2 [⟨some 1, 5⟩, ⟨some 2, 7⟩] [⟨some 1, 5⟩] ⟨some 2, 7⟩ ⟨some 1, 5⟩
      (by decide) (by decide) (by decide) (by decide)⟩

/-- C10. Deferred requeue: every response a wait dequeues whose id does
not match is put back onto the queue, in dequeue order, before the wait
returns or raises. When a match is found the final queue is the suffix
not yet dequeued followed by the deferred prefix; when the wait times out
the final queue is the whole arrival list unchanged, so no other call
loses its response. -/
theorem deferred_requeue_preserves :
    ∀ (n : Nat) (q : List Msg),
      (∃ pre m post, q = pre ++ m :: post ∧ (∀ x ∈ pre, x.rid ≠ some n) ∧ m.rid = some n ∧
          wait_for_response q (some n) = (WaitOutcome.response m, post ++ pre)) ∨
      ((∀ x ∈ q, x.rid ≠ some n) ∧ wait_for_response q (some n) = (WaitOutcome.timeoutError, q)) := by
  intro n q
  rcases wait_loop_spec n q [] with ⟨pre, m, post, hq, hpre, hm, heq⟩ | ⟨hall, heq⟩
  · left
    exact ⟨pre, m, post, hq, hpre, hm, by rw [wait_for_response, heq]; simp⟩
  · right
    exact ⟨hall, by rw [wait_for_response, heq]; simp⟩

/-- A dequeued non-object entry raises AttributeError out of the wait to
its caller, with the deferred entries collected so far re-enqueued by the
finally block. -/
theorem raw_wait_loop_attribute_error (request_id : Option Nat) (v : Nat)
    (rest deferred : List QItem) :
    raw_wait_loop request_id (QItem.raw v :: rest) deferred =
      (RawWaitOutcome.attributeError v, rest ++ deferred) := by
  simp [raw_wait_loop]

/-- On a queue of well-formed response objects the raw queue semantics
agrees with the message level wait loop when a response is delivered: the
same response comes back and the final queues correspond entry by
entry. -/
theorem raw_wait_loop_agrees_response (n : Nat) :
    ∀ (q d : List Msg) (m : Msg) (q2 : List Msg),
      wait_loop (some n) q d = (WaitOutcome.response m, q2) →
      raw_wait_loop (some n) (q.map QItem.msg) (d.map QItem.msg) =
        (RawWaitOutcome.response m, q2.map QItem.msg) := by
  intro q
  induction q with
  | nil => intro d m q2 h; simp [wait_loop] at h
  | cons x rest ih =>
    intro d m q2 h
    by_cases hx : x.rid = some n
    · rw [wait_loop, if_pos (Or.inr hx)] at h
      have hm : x = m := by
        have := congrArg Prod.fst h
        simpa using this
      have hq2 : q2 = rest ++ d := by
        have := congrArg Prod.snd h
        simpa using this.symm
      subst hm
      subst hq2
      simp [raw_wait_loop, hx]
    · have hcond : ¬ ((some n : Option Nat) = none ∨ x.rid = some n) := by simp [hx]
      rw [wait_loop, if_neg hcond] at h
      have := ih (d ++ [x]) m q2 h
      rw [List.map_cons]
      rw [raw_wait_loop.eq_def]
      simp only [if_neg hcond]
      simpa [List.map_append] using this

/-- On a queue of well-formed response objects the raw queue semantics
agrees with the message level wait loop when the wait times out. -/
theorem raw_wait_loop_agrees_timeout (n : Nat) :
    ∀ (q d : List Msg) (q2 : List Msg),
      wait_loop (some n) q d = (WaitOutcome.timeoutError, q2) →
      raw_wait_loop (some n) (q.map QItem.msg) (d.map QItem.msg) =
        (RawWaitOutcome.timeoutError, q2.map QItem.msg) := by
  intro q
  induction q with
  | nil =>
    intro d q2 h
    simp [wait_loop] at h
    simp [raw_wait_loop, h]
  | cons x rest ih =>
    intro d q2 h
    by_cases hx : x.rid = some n
    · rw [wait_loop, if_pos (Or.inr hx)] at h
      have := congrArg Prod.fst h
      simp at this
    · have hcond : ¬ ((some n : Option Nat) = none ∨ x.rid = some n) := by simp [hx]
      rw [wait_loop, if_neg hcond] at h
      have := ih (d ++ [x]) q2 h
      rw [List.map_cons]
      rw [raw_wait_loop.eq_def]
      simp only [if_neg hcond]
      simpa [List.map_append] using this

/-- C8 fails on the code: only JSONDecodeError is caught around the
decode, so a line that is valid JSON but not an object is put on the
queue and then the success log calls response.get on it, whose
AttributeError ends the reader loop with a line still unread, before end
of stream; and the queued non-object later raises AttributeError out of
wait_for_response to the caller that dequeues it, with the id 1 response
deferred first. -/
theorem reader_terminated_by_nonobject :
    read_stdout
        [protocol_line ⟨some 1, 0⟩, ⟨false, false, Decoded.nonObj 42⟩,
          protocol_line ⟨some 2, 0⟩] [] =
      ([QItem.msg ⟨some 1, 0⟩, QItem.raw 42], false) ∧
    raw_wait_for_response [QItem.msg ⟨some 1, 0⟩, QItem.raw 42] (some 2) =
      (RawWaitOutcome.attributeError 42, [QItem.msg ⟨some 1, 0⟩]) := by
  decide

/-- C8 amended: the loop body leaves the queue unchanged and continues on
a blank line, on a noise line and on a line that raises JSONDecodeError;
a JSONDecodeError line never ends the loop, since the rest of the stream
is processed exactly as if the line were absent, and is never raised to a
caller; the loop reaches end of stream whenever no line decodes to a
non-object value. But a non-blank non-noise line whose decode yields a
non-object is queued and terminates the loop at once, before end of
stream, and the queued non-object raises AttributeError out of the next
wait that dequeues it. -/
theorem reader_decode_errors_absorbed :
    (∀ (q : List QItem) (l : LineModel), l.blankAfterStrip = true → read_line q l = (q, true)) ∧
    (∀ (q : List QItem) (l : LineModel), l.noiseMarker = true → read_line q l = (q, true)) ∧
    (∀ (q : List QItem) (l : LineModel), l.decoded = Decoded.decodeError →
        read_line q l = (q, true)) ∧
    (∀ (xs ys : List LineModel) (q : List QItem) (bad : LineModel),
        bad.decoded = Decoded.decodeError →
        read_stdout (xs ++ bad :: ys) q = read_stdout (xs ++ ys) q) ∧
    (∀ (lines : List LineModel) (q : List QItem),
        (∀ l ∈ lines, ∀ v : Nat, l.decoded ≠ Decoded.nonObj v) →
        (read_stdout lines q).2 = true) ∧
    (∀ (l : LineModel) (ys : List LineModel) (q : List QItem) (v : Nat),
        l.blankAfterStrip = false → l.noiseMarker = false → l.decoded = Decoded.nonObj v →
        read_stdout (l :: ys) q = (q ++ [QItem.raw v], false)) ∧
    (∀ (v : Nat) (rest : List QItem) (request_id : Option Nat),
        raw_wait_for_response (QItem.raw v :: rest) request_id =
          (RawWaitOutcome.attributeError v, rest)) := by
  have hblank : ∀ (q : List QItem) (l : LineModel), l.blankAfterStrip = true →
      read_line q l = (q, true) := by
    intro q l h; simp [read_line, h]
  have hnoise : ∀ (q : List QItem) (l : LineModel), l.noiseMarker = true →
      read_line q l = (q, true) := by
    intro q l h
    by_cases hb : l.blankAfterStrip
    · simp [read_line, hb]
    · simp [read_line, hb, h]
  have hdecode : ∀ (q : List QItem) (l : LineModel), l.decoded = Decoded.decodeError →
      read_line q l = (q, true) := by
    intro q l h
    by_cases hb : l.blankAfterStrip
    · simp [read_line, hb]
    · by_cases hn : l.noiseMarker
      · simp [read_line, hb, hn]
      · simp [read_line, hb, hn, h]
  refine ⟨hblank, hnoise, hdecode, ?_, ?_, ?_, ?_⟩
  · intro xs
    induction xs with
    | nil =>
      intro ys q bad hbad
      have hb := hdecode q bad hbad
      simp [read_stdout, hb]
    | cons x xs ih =>
      intro ys q bad hbad
      simp only [List.cons_append, read_stdout]
      by_cases hx : (read_line q x).2
      · simp [hx, ih ys (read_line q x).1 bad hbad]
      · simp [hx]
  · intro lines
    induction lines with
    | nil => intro q _; simp [read_stdout]
    | cons l rest ih =>
      intro q hall
      have hl : (read_line q l).2 = true := by
        by_cases hb : l.blankAfterStrip
        · simp [read_line, hb]
        · by_cases hn : l.noiseMarker
          · simp [read_line, hb, hn]
          · cases hd : l.decoded with
            | decodeError => simp [read_line, hb, hn, hd]
            | obj m => simp [read_line, hb, hn, hd]
            | nonObj v => exact absurd hd (hall l (by simp) v)
      simp only [read_stdout, hl, if_true]
      exact ih (read_line q l).1 (fun x hx v => hall x (by simp [hx]) v)
  · intro l ys q v hb hn hd
    simp [read_stdout, read_line, hb, hn, hd]
  · intro v rest request_id
    simp [raw_wait_for_response, raw_wait_loop]

/-- Witness for C8 amended at concrete lines: a JSONDecodeError line
leaves the empty queue empty and lets the loop continue. -/
theorem reader_decode_errors_absorbed_witness :
    read_line [] ⟨false, false, Decoded.decodeError⟩ = ([], true) :=
  reader_decode_errors_absorbed.2.2.1 [] ⟨false, false, Decoded.decodeError⟩ rfl

/-- The queue grows by exactly one per decoded protocol response line and
the reader keeps going. -/
theorem read_stdout_replicate (m : Msg) :
    ∀ (n : Nat) (q : List QItem),
      ((read_stdout (List.replicate n (protocol_line m)) q).1).length = q.length + n := by
  intro n
  induction n with
  | zero => intro q; simp [read_stdout]
  | succ k ih =>
    intro q
    rw [List.replicate_succ]
    have h1 : read_line q (protocol_line m) = (q ++ [QItem.msg m], true) := by
      simp [read_line, protocol_line]
    simp only [read_stdout, h1, if_true]
    rw [ih (q ++ [QItem.msg m])]
    simp
    omega

/-- C5 fails on the code: response_queue is created as queue.Queue() with
no maxsize, the reader appends every decoded response and the waits put
every deferred response back, so the holding area has no size bound at
all: no natural number bounds the queue length over all streams. -/
theorem holding_area_not_bounded :
    ¬ ∃ B : Nat, ∀ lines : List LineModel, ((read_stdout lines []).1).length ≤ B := by
  rintro ⟨B, hB⟩
  have h := hB (List.replicate (B + 1) (protocol_line ⟨some 1, 0⟩))
  rw [read_stdout_replicate] at h
  omega

/-- C5 amended: the holding area is unbounded and nothing is ever
evicted. Storing a decoded response appends it to the queue, every entry
already held stays held through any line, and a stream of n protocol
lines grows the queue to length n, beyond any fixed bound. -/
theorem holding_area_appends_never_evicts :
    (∀ (q : List QItem) (m : Msg), read_line q (protocol_line m) = (q ++ [QItem.msg m], true)) ∧
    (∀ (q : List QItem) (l : LineModel) (x : QItem), x ∈ q → x ∈ (read_line q l).1) ∧
    (∀ (n : Nat) (m : Msg),
        ((read_stdout (List.replicate n (protocol_line m)) []).1).length = n) := by
  refine ⟨?_, ?_, ?_⟩
  · intro q m; simp [read_line, protocol_line]
  · intro q l x hx
    by_cases hb : l.blankAfterStrip
    · simpa [read_line, hb] using hx
    · by_cases hn : l.noiseMarker
      · simpa [read_line, hb, hn] using hx
      · cases hd : l.decoded with
        | decodeError => simpa [read_line, hb, hn, hd] using hx
        | obj m => simp [read_line, hb, hn, hd, hx]
        | nonObj v => simp [read_line, hb, hn, hd, hx]
  · intro n m
    have := read_stdout_replicate m n []
    simpa using this

/-- Witness for C5 amended at a concrete queue: the entry already held
survives the arrival of a further protocol line. -/
theorem holding_area_appends_never_evicts_witness :
    QItem.msg ⟨some 1, 0⟩ ∈ (read_line [QItem.msg ⟨some 1, 0⟩] (protocol_line ⟨some 2, 0⟩)).1 :=
  holding_area_appends_never_evicts.2.1 [QItem.msg ⟨some 1, 0⟩] (protocol_line ⟨some 2, 0⟩)
    (QItem.msg ⟨some 1, 0⟩) (by decide)

/-- C4 fails on the code: when the stream ends the reader thread just
breaks out and exits, leaving every field of the client untouched, and a
caller blocked in wait_for_response sees nothing arrive, waits out its
full timeout and raises TimeoutError, which is not the connectionLost
failure the stated property promises. -/
theorem connection_loss_not_surfaced :
    read_stdout_thread ⟨true, [], 3, true⟩ [] = ⟨true, [], 3, true⟩ ∧
    (wait_for_response [] (some 3)).1 = WaitOutcome.timeoutError ∧
    WaitOutcome.timeoutError ≠ WaitOutcome.connectionLost := by
  decide

/-- C4 amended: on end of stream the reader exits without changing any
client field other than the queue; no Closing mark exists, so a blocked
caller is never notified, waits out its full per-call timeout and raises
TimeoutError rather than receiving a ConnectionLost failure. -/
theorem eof_exit_changes_nothing :
    (∀ (s : ClientState) (lines : List LineModel),
        (read_stdout_thread s lines).hasProcess = s.hasProcess ∧
        (read_stdout_thread s lines).request_id = s.request_id ∧
        (read_stdout_thread s lines).inited = s.inited) ∧
    (∀ (n : Nat) (q : List Msg), (∀ x ∈ q, x.rid ≠ some n) →
        wait_for_response q (some n) = (WaitOutcome.timeoutError, q)) ∧
    WaitOutcome.timeoutError ≠ WaitOutcome.connectionLost := by
  refine ⟨?_, ?_, by decide⟩
  · intro s lines
    exact ⟨rfl, rfl, rfl⟩
  · intro n q hnone
    rcases wait_loop_spec n q [] with ⟨pre, mm, post, hq, _, hmm, _⟩ | ⟨_, heq⟩
    · exact absurd hmm (hnone mm (by simp [hq]))
    · rw [wait_for_response, heq]; simp

/-- Witness for C4 amended: a caller waiting for id 1 over an empty
stream times out. -/
theorem eof_exit_changes_nothing_witness :
    wait_for_response [] (some 1) = (WaitOutcome.timeoutError, []) :=
  eof_exit_changes_nothing.2.1 1 [] (by simp)

/-- C6. Idempotent shutdown: close clears the process handle on every
path, so after the first close the handle is gone both times, and any
later close finds no handle, attempts nothing and changes nothing. The
function is total over every process behavior, including a child that
already exited on its own: terminate on an exited child returns without
signalling and wait returns at once; every exception path inside close is
swallowed, so no invocation produces an error. -/
theorem close_idempotent :
    ∀ (s : ClientState) (b b2 : ProcBehavior),
      (close s b).1.hasProcess = false ∧
      close (close s b).1 b2 = ((close s b).1, []) := by
  intro s b b2
  by_cases hp : s.hasProcess
  · simp [close, hp]
  · simp [close, hp]

/-- C7 fails on the code: close never touches the stdin stream of the
child. Its trace for a process that ignores terminate is terminate, then
the grace wait, then the process-group kill, and closeStdin is nowhere in
it; in particular the sequence does not begin by closing the input
stream. -/
theorem close_sequence_no_stdin_close :
    (close ⟨true, [], 0, true⟩ ⟨false, false⟩).2 =
      [ShutdownAction.terminate, ShutdownAction.waitGrace,
        ShutdownAction.killProcessGroup] ∧
    ShutdownAction.closeStdin ∉ (close ⟨true, [], 0, true⟩ ⟨false, false⟩).2 := by
  decide

/-- C7 amended: shutdown starts with a graceful terminate, waits up to
the 5 second grace period, and escalates to killing the whole process
group exactly when terminate did not raise and the process did not exit
within the grace period; the input stream is never explicitly closed, and
the process handle is cleared unconditionally before close returns, even
when the termination attempts fail. -/
theorem close_escalation :
    (∀ (s : ClientState) (b : ProcBehavior), s.hasProcess = true →
        (close s b).2.head? = some ShutdownAction.terminate ∧
        (ShutdownAction.killProcessGroup ∈ (close s b).2 ↔
          b.terminateRaises = false ∧ b.exitsWithinGrace = false) ∧
        ShutdownAction.closeStdin ∉ (close s b).2) ∧
    (∀ (s : ClientState) (b : ProcBehavior), (close s b).1.hasProcess = false) := by
  constructor
  · intro s b hp
    rcases b with ⟨eg, tr⟩
    cases eg <;> cases tr <;> simp [close, hp]
  · intro s b
    by_cases hp : s.hasProcess
    · simp [close, hp]
    · simp [close, hp]

/-- Witness for C7 amended: for a live process that ignores terminate and
outlives the grace period, the trace begins with terminate, contains the
process-group kill, avoids closeStdin, and the handle ends cleared. -/
theorem close_escalation_witness :
    (close ⟨true, [], 0, true⟩ ⟨false, false⟩).2.head? = some ShutdownAction.terminate ∧
    (ShutdownAction.killProcessGroup ∈ (close ⟨true, [], 0, true⟩ ⟨false, false⟩).2 ↔
      (false = false ∧ false = false)) ∧
    ShutdownAction.closeStdin ∉ (close ⟨true, [], 0, true⟩ ⟨false, false⟩).2 :=
  close_escalation.1 ⟨true, [], 0, true⟩ ⟨false, false⟩ rfl

/-- For a child that never exits and becomes ready within the budget, the
startup loop reaches a successful initialization attempt. The invariant
ties the iteration count to the elapsed counter: each iteration consumes
two tenths, and the while condition admits exactly the iterations that
keep elapsed below 80. -/
theorem start_loop_reaches_ready (b : StartBehavior) (hex : b.exitedAt = none)
    (hr : b.readyAt ≤ 80) :
    ∀ (iters elapsed : Nat), elapsed + 2 * iters = 80 → 1 ≤ iters →
      ∃ e, start_loop b iters elapsed = StartResult.ready e := by
  intro iters
  induction iters with
  | zero => intro elapsed _ h1; omega
  | succ k ih =>
    intro elapsed hsum _
    have hpoll : poll_exited b elapsed = false := by
      simp [poll_exited, hex]
    by_cases h10 : 10 ≤ elapsed + 2
    · by_cases hready : b.readyAt ≤ elapsed + 2
      · exact ⟨elapsed + 2, by simp [start_loop, hpoll, h10, hready]⟩
      · have h80 : ¬ 80 ≤ elapsed + 2 := by omega
        have hk1 : 1 ≤ k := by omega
        rcases ih (elapsed + 2) (by omega) hk1 with ⟨e, he⟩
        exact ⟨e, by simp [start_loop, hpoll, h10, hready, h80, he]⟩
    · have hk1 : 1 ≤ k := by omega
      rcases ih (elapsed + 2) (by omega) hk1 with ⟨e, he⟩
      exact ⟨e, by simp [start_loop, hpoll, h10, he]⟩

/-- Under the same invariant the loop always returns through one of its
explicit exits: the while condition never runs out before a return, so
the implicit fall-through of the source is unreachable. -/
theorem start_loop_not_fellThrough (b : StartBehavior) :
    ∀ (iters elapsed : Nat), elapsed + 2 * iters = 80 → 1 ≤ iters →
      start_loop b iters elapsed ≠ StartResult.fellThrough := by
  intro iters
  induction iters with
  | zero => intro elapsed _ h1; omega
  | succ k ih =>
    intro elapsed hsum _
    by_cases hpoll : poll_exited b elapsed = true
    · simp [start_loop, hpoll]
    · simp only [Bool.not_eq_true] at hpoll
      by_cases h10 : 10 ≤ elapsed + 2
      · by_cases hready : b.readyAt ≤ elapsed + 2
        · simp [start_loop, hpoll, h10, hready]
        · by_cases h80 : 80 ≤ elapsed + 2
          · simp [start_loop, hpoll, h10, hready, h80]
          · have hk1 : 1 ≤ k := by omega
            have hsum2 : (elapsed + 2) + 2 * k = 80 := by omega
            have := ih (elapsed + 2) hsum2 hk1
            simpa [start_loop, hpoll, h10, hready, h80] using this
      · have hk1 : 1 ≤ k := by omega
        have hsum2 : (elapsed + 2) + 2 * k = 80 := by omega
        have := ih (elapsed + 2) hsum2 hk1
        simpa [start_loop, hpoll, h10] using this

/-- Whenever the process has exited and no initialization attempt has
succeeded first, the loop raises the fatal startup error at its next
poll: with the process dead from time t on and d the first poll time at
or after t (poll times are the even elapsed values), the loop reaches the
poll at d and fails fast there, provided the server was not ready by d so
that no attempt returned earlier. -/
theorem start_loop_fail_fast (b : StartBehavior) (t d : Nat) (hex : b.exitedAt = some t)
    (hde : d % 2 = 0) (htd : t ≤ d) (hdt : d < t + 2) (hd78 : d ≤ 78)
    (hready : d < b.readyAt) :
    ∀ (iters elapsed : Nat), elapsed + 2 * iters = 80 → elapsed % 2 = 0 → elapsed ≤ d →
      start_loop b iters elapsed = StartResult.fatalExited d := by
  intro iters
  induction iters with
  | zero => intro elapsed hsum _ hle; omega
  | succ k ih =>
    intro elapsed hsum hmod hle
    by_cases heq : elapsed = d
    · subst heq
      have hpoll : poll_exited b elapsed = true := by
        simp [poll_exited, hex, htd]
      simp [start_loop, hpoll]
    · have hlt : elapsed < d := lt_of_le_of_ne hle heq
      have hle2 : elapsed + 2 ≤ d := by omega
      have hpoll : poll_exited b elapsed = false := by
        have : ¬ t ≤ elapsed := by omega
        simp [poll_exited, hex, this]
      have hnready : ¬ b.readyAt ≤ elapsed + 2 := by omega
      have hn80 : ¬ 80 ≤ elapsed + 2 := by omega
      have hsum2 : (elapsed + 2) + 2 * k = 80 := by omega
      by_cases h10 : 10 ≤ elapsed + 2
      · have := ih (elapsed + 2) hsum2 (by omega) hle2
        simpa [start_loop, hpoll, h10, hnready, hn80] using this
      · have := ih (elapsed + 2) hsum2 (by omega) hle2
        simpa [start_loop, hpoll, h10] using this

/-- C9 fails on the code in its per-attempt clause: the initialization
attempt calls wait_for_response without a timeout argument, so its
per-attempt timeout is the 10 second default, which is not short: it
exceeds the entire 8 second startup budget, and none of that blocked wall
time is recorded by the elapsed counter that meters the budget. -/
theorem per_attempt_timeout_exceeds_budget :
    max_wait_time_tenths < default_wait_timeout_tenths := by
  decide

/-- C9 amended: the startup loop polls the process at every iteration and
fails fast with the fatal startup error at the first poll after the
process has exited, whenever no attempt has succeeded before that poll; a
process that never exits and becomes ready at any elapsed time strictly
below the 8 second budget makes start_server succeed, whatever the exact
delay; the loop never falls out of the while condition without returning,
so retries continue exactly while the overall budget remains; but the
per-attempt timeout is the 10 second wait_for_response default, which
exceeds the whole 8 second budget rather than being short. -/
theorem handshake_fail_fast_and_converges :
    (∀ (b : StartBehavior) (t d : Nat), b.exitedAt = some t →
        d % 2 = 0 → t ≤ d → d < t + 2 → d ≤ 78 → d < b.readyAt →
        start_server b = StartResult.fatalExited d) ∧
    (∀ b : StartBehavior, b.exitedAt = none → b.readyAt < 80 →
        ∃ e, start_server b = StartResult.ready e) ∧
    (∀ b : StartBehavior, start_server b ≠ StartResult.fellThrough) ∧
    max_wait_time_tenths < default_wait_timeout_tenths := by
  refine ⟨?_, ?_, ?_, by decide⟩
  · intro b t d hex hde htd hdt hd78 hready
    exact start_loop_fail_fast b t d hex hde htd hdt hd78 hready 40 0
      (by omega) (by omega) (by omega)
  · intro b hex hr
    exact start_loop_reaches_ready b hex (by omega) 40 0 (by omega) (by omega)
  · intro b
    exact start_loop_not_fellThrough b 40 0 (by omega) (by omega)

/-- Witness for C9 at concrete behaviors: a child that dies at elapsed
0.3 seconds while the server would only be ready at 10 seconds is
reported fatal at the 0.4 second poll, and a child that never exits and
is ready from elapsed 5.5 seconds on is initialized successfully. -/
theorem handshake_fail_fast_and_converges_witness :
    start_server ⟨some 3, 100⟩ = StartResult.fatalExited 4 ∧
    ∃ e, start_server ⟨none, 55⟩ = StartResult.ready e :=
  ⟨handshake_fail_fast_and_converges.1 ⟨some 3, 100⟩ 3 4 rfl (by decide) (by decide)
      (by decide) (by decide) (by decide),
    handshake_fail_fast_and_converges.2.1 ⟨none, 55⟩ rfl (by decide)⟩

end TestClient
